import Mathlib

/-!
Verification development for the malachite repository core:
the Sync Request Planner (`crates/sync/src/pending_requests.rs`) and the
Discovery & Reachability Engine address handling
(`crates/discovery/src/addr_filter.rs`, `crates/discovery/src/lib.rs`).

Heights (`Ctx::Height`) are modelled as `Nat`: the code only uses
`as_u64`, `increment`, `increment_by`, and `decrement` (which is total
in the model: `decrement().unwrap_or(h)` is `h - 1` on `Nat`, matching
the code for `h = 0` as well). `RangeInclusive<Height>` is a pair
`(start, end)`. `OutboundRequestId` and `PeerId` are modelled as `Nat`
(opaque, comparable identities). The `BTreeMap` of requests is an
association list kept sorted by key, mirroring `BTreeMap` iteration
order.
-/

namespace SRP

/-- An inclusive height range `start..=end`, as `RangeInclusive<Height>`. -/
abbrev HRange := Nat × Nat

/-- `RangeInclusive::contains`: `start <= h && h <= end`. -/
def rangeContains (r : HRange) (h : Nat) : Bool :=
  decide (r.1 ≤ h) && decide (h ≤ r.2)

/-- State of `PendingRequests` (`pending_requests.rs`, lines 22-36):
the request map, the clamped `max_batch_size`, the cached
`next_uncovered_range` (split into its two endpoints) and the
`last_validated_height` control field. -/
structure SyncState where
  requests : List (Nat × HRange × Nat)
  max_batch_size : Nat
  nextStart : Nat
  nextEnd : Nat
  last_validated_height : Nat
deriving Repr, DecidableEq

/-- `BTreeMap::insert`: place the binding at its key-ordered position,
replacing an existing binding for the same key. -/
def mapInsert (k : Nat) (v : HRange × Nat) :
    List (Nat × HRange × Nat) → List (Nat × HRange × Nat)
  | [] => [(k, v)]
  | (k', v') :: t =>
    if k < k' then (k, v) :: (k', v') :: t
    else if k = k' then (k, v) :: t
    else (k', v') :: mapInsert k v t

/-- `BTreeMap::remove`: the removed value (if any) and the remaining map. -/
def mapRemove (k : Nat) :
    List (Nat × HRange × Nat) → Option (HRange × Nat) × List (Nat × HRange × Nat)
  | [] => (none, [])
  | (k', v') :: t =>
    if k = k' then (some v', t)
    else
      let r := mapRemove k t
      (r.1, (k', v') :: r.2)

/-- Stable insertion of a range into a list sorted by start height
(`Vec::sort_by_key` is stable; an element is placed after all elements
whose start is less than or equal to its own). -/
def insertByStart (r : HRange) : List HRange → List HRange
  | [] => [r]
  | x :: t => if r.1 ≤ x.1 then r :: x :: t else x :: insertByStart r t

/-- Stable sort by start height, as `sort_by_key(|r| r.start)`. -/
def sortByStart : List HRange → List HRange
  | [] => []
  | x :: t => insertByStart x (sortByStart t)

/-- `get_ranges` (lines 259-270): all pending ranges, sorted by start. -/
def getRanges (s : SyncState) : List HRange :=
  sortByStart (s.requests.map (fun x => x.2.1))

/-- The `while let` loop of `compute_next_uncovered_range_from`
(lines 233-236): advance `start_height` past any covering range. Each
iteration moves `start` past the end of one range, so a fuel of
`ranges.length` reaches the fixpoint the Rust loop reaches. -/
def advanceStart (ranges : List HRange) : Nat → Nat → Nat
  | 0, start => start
  | fuel + 1, start =>
    match ranges.find? (fun r => rangeContains r start) with
    | none => start
    | some r => advanceStart ranges fuel (r.2 + 1)

/-- The clamping `for` loop of `compute_next_uncovered_range_from`
(lines 243-253): the first sorted range with `start < range.start ≤ end`
clamps `end` to `range.start - 1` (the `decrement().unwrap_or` is guarded
by `range.start > 0`). -/
def clampEnd (start endH : Nat) : List HRange → Nat
  | [] => endH
  | r :: t =>
    if decide (start < r.1) && decide (r.1 ≤ endH) then
      if 0 < r.1 then r.1 - 1 else endH
    else clampEnd start endH t

/-- Body of `compute_next_uncovered_range_from` as a function of the
sorted range list and the batch size. -/
def computeFromRanges (ranges : List HRange) (mbs : Nat) (initial_height : Nat) : HRange :=
  let start := advanceStart ranges ranges.length initial_height
  let endH := start + (mbs - 1)
  (start, clampEnd start endH ranges)

/-- `compute_next_uncovered_range_from` (lines 221-256). -/
def computeNextUncoveredRangeFrom (s : SyncState) (initial_height : Nat) : HRange :=
  computeFromRanges (getRanges s) s.max_batch_size initial_height

/-- `compute_next_uncovered_range` (lines 216-218): recompute from the
current `next_uncovered_range.start()`. -/
def computeNextUncoveredRange (s : SyncState) : HRange :=
  computeNextUncoveredRangeFrom s s.nextStart

/-- `set_next_uncovered_range` (lines 95-105). The `assert!` that
`new_range.start() > last_validated_height` is a consistency check, not
modelled as a panic; the range is stored. -/
def setNextUncoveredRange (s : SyncState) (r : HRange) : SyncState :=
  { s with nextStart := r.1, nextEnd := r.2 }

namespace PendingRequests

/-- `PendingRequests::new` (lines 39-53). -/
def new (initial_height : Nat) (max_batch_size : Nat) : SyncState :=
  let mbs := max 1 max_batch_size
  { requests := []
    max_batch_size := mbs
    nextStart := initial_height
    nextEnd := initial_height + (mbs - 1)
    last_validated_height := initial_height - 1 }

/-- `update_next_range` (lines 157-160). -/
def updateNextRange (s : SyncState) : SyncState :=
  setNextUncoveredRange s (computeNextUncoveredRange s)

/-- `update_next_range_after_insert` (lines 163-189). -/
def updateNextRangeAfterInsert (s : SyncState) (inserted : HRange) : SyncState :=
  if s.nextEnd < inserted.1 then s
  else if decide (inserted.1 ≤ s.nextEnd) && decide (s.nextStart ≤ inserted.2) then
    setNextUncoveredRange s (computeNextUncoveredRangeFrom s (inserted.2 + 1))
  else if rangeContains inserted s.nextStart then
    setNextUncoveredRange s (computeNextUncoveredRangeFrom s s.nextStart)
  else s

/-- `update_next_range_after_remove` (lines 192-213). Note that the
code's first branch tests `max(next.start, removed.start) < next.start`,
which never holds, so control always falls through to the second test
or the full recompute. The branch is embedded as written. -/
def updateNextRangeAfterRemove (s : SyncState) (removed : HRange) : SyncState :=
  if decide (removed.2 < s.nextStart) && decide (max s.nextStart removed.1 < s.nextStart) then
    setNextUncoveredRange s (computeNextUncoveredRangeFrom s (max s.nextStart removed.1))
  else if s.nextEnd < removed.1 then s
  else updateNextRange s

/-- `insert` (lines 108-117). -/
def insert (s : SyncState) (request_id : Nat) (range : HRange) (peer_id : Nat) :
    SyncState :=
  let s' := { s with requests := mapInsert request_id (range, peer_id) s.requests }
  updateNextRangeAfterInsert s' range

/-- `remove` (lines 120-130); only the state, the returned pair is
`(mapRemove request_id s.requests).1`. -/
def remove (s : SyncState) (request_id : Nat) : SyncState :=
  let r := mapRemove request_id s.requests
  match r.1 with
  | none => { s with requests := r.2 }
  | some (removed_range, _) =>
    updateNextRangeAfterRemove { s with requests := r.2 } removed_range

/-- `remove_requests_up_to` (lines 66-89): an early (logged) no-op when
`height < last_validated_height`; otherwise retain requests ending after
`height`, advance `last_validated_height`, and recompute the next range
from `height + 1`. -/
def removeRequestsUpTo (s : SyncState) (height : Nat) : SyncState :=
  if height < s.last_validated_height then s
  else
    let s1 := { s with
      requests := s.requests.filter (fun x => decide (height < x.2.1.2))
      last_validated_height := height }
    setNextUncoveredRange s1 (computeNextUncoveredRangeFrom s1 (height + 1))

end PendingRequests

/-- States reachable from `new` by any sequence of `insert`, `remove`
and `remove_requests_up_to`. -/
inductive Reach : SyncState → Prop
  | mk_new (h b : Nat) : Reach (PendingRequests.new h b)
  | step_insert {s} (id lo hi p : Nat) :
      Reach s → Reach (PendingRequests.insert s id (lo, hi) p)
  | step_remove {s} (id : Nat) :
      Reach s → Reach (PendingRequests.remove s id)
  | step_removeUpTo {s} (h : Nat) :
      Reach s → Reach (PendingRequests.removeRequestsUpTo s h)

/-- A height is covered by some pending request's range. -/
def coveredBy (s : SyncState) (h : Nat) : Bool :=
  s.requests.any (fun x => rangeContains x.2.1 h)

end SRP

/-!
Discovery & Reachability Engine: `Multiaddr` is a sequence of protocol
components; `PeerId` is an opaque comparable identity, modelled as a
`String` (its base58 text). The address-filter code works on the
`Display` rendering of multiaddrs (`addr.to_string()`), so the rendering
is embedded too: each component renders as `/<name>/<payload>` (and
`/p2p-circuit` with no payload), IPv4 as dotted decimal, IPv6 with the
Rust `Ipv6Addr` display algorithm (special cases for the unspecified,
loopback and IPv4-mapped addresses, then compression of the first
longest run of two or more zero groups, lowercase hex groups).
-/

namespace DRE

/-- Protocol components recognized by the core (spec section 6). -/
inductive Proto where
  | ip4 (a b c d : Nat)
  | ip6 (segs : List Nat)
  | tcp (port : Nat)
  | udp (port : Nat)
  | dns (name : String)
  | p2p (id : String)
  | p2pCircuit
deriving DecidableEq, Repr

/-- A multiaddr is its ordered list of components. -/
abbrev Multiaddr := List Proto

/-- Decimal rendering of a number. -/
def natDec (n : Nat) : String := Nat.repr n

/-- Lowercase hexadecimal rendering without padding, as Rust `{:x}`. -/
def hexStr (n : Nat) : String := String.mk (Nat.toDigits 16 n)

/-- Dotted-decimal rendering of an IPv4 address. -/
def ip4Str (a b c d : Nat) : String :=
  natDec a ++ "." ++ natDec b ++ "." ++ natDec c ++ "." ++ natDec d

/-- Colon-separated hex groups. -/
def segsJoin : List Nat → String
  | [] => ""
  | [x] => hexStr x
  | x :: y :: t => hexStr x ++ ":" ++ segsJoin (y :: t)

/-- First longest run of zero groups `(start, len)`, as computed by the
Rust `Ipv6Addr` formatter (a longer run replaces the best only when
strictly longer, so the first longest run wins). -/
def findZeroSpan (segs : List Nat) : Nat × Nat :=
  let step := fun (acc : Nat × Nat × Nat × Nat × Nat) (seg : Nat) =>
    let i := acc.1
    let cs := acc.2.1
    let cl := acc.2.2.1
    let bs := acc.2.2.2.1
    let bl := acc.2.2.2.2
    if seg = 0 then
      let cs' := if cl = 0 then i else cs
      if bl < cl + 1 then (i + 1, cs', cl + 1, cs', cl + 1)
      else (i + 1, cs', cl + 1, bs, bl)
    else (i + 1, cs, 0, bs, bl)
  let r := segs.foldl step (0, 0, 0, 0, 0)
  (r.2.2.2.1, r.2.2.2.2)

/-- Rust `Ipv6Addr` display on the list of 16-bit groups. -/
def ip6Str (segs : List Nat) : String :=
  if segs.all (fun s => decide (s = 0)) then "::"
  else if segs = [0, 0, 0, 0, 0, 0, 0, 1] then "::1"
  else if segs.take 6 = [0, 0, 0, 0, 0, 0xffff] then
    match segs.drop 6 with
    | [g, h] => "::ffff:" ++ ip4Str (g / 256) (g % 256) (h / 256) (h % 256)
    | _ => segsJoin segs
  else
    let z := findZeroSpan segs
    if 1 < z.2 then
      segsJoin (segs.take z.1) ++ "::" ++ segsJoin (segs.drop (z.1 + z.2))
    else segsJoin segs

/-- Display of one component, as libp2p `Multiaddr` renders it. -/
def protoStr : Proto → String
  | .ip4 a b c d => "/ip4/" ++ ip4Str a b c d
  | .ip6 segs => "/ip6/" ++ ip6Str segs
  | .tcp p => "/tcp/" ++ natDec p
  | .udp p => "/udp/" ++ natDec p
  | .dns n => "/dns/" ++ n
  | .p2p i => "/p2p/" ++ i
  | .p2pCircuit => "/p2p-circuit"

/-- `addr.to_string()`. -/
def maStr (a : Multiaddr) : String := String.join (a.map protoStr)

/-- Substring test on character lists (Rust `str::contains` with a
string pattern). -/
def hasSub (pat : List Char) : List Char → Bool
  | [] => pat.isEmpty
  | c :: t => pat.isPrefixOf (c :: t) || hasSub pat t

/-- Count of non-overlapping, leftmost-first occurrences of a pattern
(Rust `str::matches(pat).count()`): after a match at a position, the
following `pat.length - 1` characters are part of the match and are
skipped, tracked by the counter. -/
def countSubGo (pat : List Char) : List Char → Nat → Nat
  | [], _ => 0
  | _ :: t, skip + 1 => countSubGo pat t skip
  | c :: t, 0 =>
    if pat.isPrefixOf (c :: t) then 1 + countSubGo pat t (pat.length - 1)
    else countSubGo pat t 0

/-- Count of non-overlapping occurrences of a pattern. -/
def countSub (pat s : List Char) : Nat := countSubGo pat s 0

/-- Substring test on strings. -/
def strHasSub (s pat : String) : Bool := hasSub pat.data s.data

/-- Occurrence count on strings. -/
def strCount (s pat : String) : Nat := countSub pat.data s.data

/-- The loopback test applied by the filters: the rendered address
contains `127.0.0.1` or `::1` (`addr_filter.rs` lines 87, 124, 230,
263). -/
def isLoopbackStr (a : Multiaddr) : Bool :=
  strHasSub (maStr a) "127.0.0.1" || strHasSub (maStr a) "::1"

/-- Occurrences of `/p2p-circuit/` in the rendered address
(`addr_filter.rs` lines 92, 234). -/
def circuitStrCount (a : Multiaddr) : Nat := strCount (maStr a) "/p2p-circuit/"

/-- The pre-filter on peer addresses: not loopback and not a
double-relay address (`addr_filter.rs` lines 82-103, 225-245). -/
def loopbackPre (a : Multiaddr) : Bool :=
  !isLoopbackStr a && !(decide (1 < circuitStrCount a))

/-- The filter on own addresses: not loopback (`addr_filter.rs`
lines 120-126, 259-265). -/
def ownPre (a : Multiaddr) : Bool := !isLoopbackStr a

/-- IP addresses extracted from components. -/
inductive IpAddr where
  | v4 (a b c d : Nat)
  | v6 (segs : List Nat)
deriving DecidableEq, Repr

/-- `extract_ip` (`addr_filter.rs` lines 8-19): the first IPv4 or IPv6
component. -/
def extract_ip : Multiaddr → Option IpAddr
  | [] => none
  | .ip4 a b c d :: _ => some (.v4 a b c d)
  | .ip6 segs :: _ => some (.v6 segs)
  | _ :: t => extract_ip t

/-- `is_private_ip` (`addr_filter.rs` lines 25-33): RFC1918 for IPv4;
unique-local (`fc00::/7`) or unicast link-local (`fe80::/10`) for IPv6,
decided on the first 16-bit group. -/
def is_private_ip : IpAddr → Bool
  | .v4 a b _ _ =>
    decide (a = 10) || (decide (a = 172) && decide (16 ≤ b) && decide (b ≤ 31))
      || (decide (a = 192) && decide (b = 168))
  | .v6 segs =>
    match segs with
    | [] => false
    | s0 :: _ => decide (s0 &&& 0xfe00 = 0xfc00) || decide (s0 &&& 0xffc0 = 0xfe80)

/-- An IPv4 address as a 32-bit number. -/
def v4ToNat (a b c d : Nat) : Nat := ((a * 256 + b) * 256 + c) * 256 + d

/-- An IPv6 address as a 128-bit number. -/
def v6ToNat (segs : List Nat) : Nat := segs.foldl (fun acc s => acc * 65536 + s) 0

/-- `same_subnet` (`addr_filter.rs` lines 36-52): network containment
for a prefix length (an invalid prefix length yields false, as the
erroring `Ipv4Net::new`/`Ipv6Net::new` do); mixed families are never in
the same subnet. -/
def same_subnet (ip1 ip2 : IpAddr) (prefix_len : Nat) : Bool :=
  match ip1, ip2 with
  | .v4 a b c d, .v4 a' b' c' d' =>
    if prefix_len ≤ 32 then
      decide (v4ToNat a b c d / 2 ^ (32 - prefix_len)
        = v4ToNat a' b' c' d' / 2 ^ (32 - prefix_len))
    else false
  | .v6 s, .v6 s' =>
    if prefix_len ≤ 128 then
      decide (v6ToNat s / 2 ^ (128 - prefix_len) = v6ToNat s' / 2 ^ (128 - prefix_len))
    else false
  | _, _ => false

/-- Result of `filter_addresses_with_relay` (`addr_filter.rs`
lines 54-61). -/
structure FilteredAddresses where
  direct : List Multiaddr
  relay_candidates : List Multiaddr
deriving DecidableEq, Repr

/-- The reachability table (`addr_filter.rs` lines 169-177, 302-313). -/
def reachPair (own_private peer_private : Bool) (own_ip peer_ip : IpAddr) : Bool :=
  match own_private, peer_private with
  | true, true => same_subnet own_ip peer_ip 16
  | true, false => true
  | false, true => false
  | false, false => true

/-- Reachable from any of the filtered own addresses (`addr_filter.rs`
lines 160-183). -/
def reachableFromAny (ownF : List Multiaddr) (peer_ip : IpAddr) : Bool :=
  ownF.any fun oa =>
    match extract_ip oa with
    | none => false
    | some own_ip => reachPair (is_private_ip own_ip) (is_private_ip peer_ip) own_ip peer_ip

/-- Classification of one surviving peer address in the main loop of
the filters: `none` means skipped (a `/p2p-circuit/` address),
`some true` direct, `some false` relay candidate. -/
def classify (ownF : List Multiaddr) (a : Multiaddr) : Option Bool :=
  if strHasSub (maStr a) "/p2p-circuit/" then none
  else
    match extract_ip a with
    | none => some true
    | some peer_ip => if reachableFromAny ownF peer_ip then some true else some false

/-- `filter_addresses_with_relay` (`addr_filter.rs` lines 76-205); the
`peer_info` argument only feeds logging and is omitted. -/
def filter_addresses_with_relay (addrs own_addrs : List Multiaddr) : FilteredAddresses :=
  let non_loopback := addrs.filter loopbackPre
  if non_loopback.isEmpty then { direct := addrs, relay_candidates := [] }
  else
    let ownF := own_addrs.filter ownPre
    if ownF.isEmpty then { direct := non_loopback, relay_candidates := [] }
    else
      { direct := non_loopback.filter (fun a => classify ownF a == some true)
        relay_candidates := non_loopback.filter (fun a => classify ownF a == some false) }

/-- `filter_reachable_addresses` (`addr_filter.rs` lines 218-340); the
`_relay_enabled` flag is accepted and ignored, as in the code. -/
def filter_reachable_addresses (addrs own_addrs : List Multiaddr)
    (_relay_enabled : Bool) : List Multiaddr :=
  let non_loopback := addrs.filter loopbackPre
  if non_loopback.isEmpty then addrs
  else
    let ownF := own_addrs.filter ownPre
    if ownF.isEmpty then non_loopback
    else non_loopback.filter (fun a => classify ownF a == some true)

/-- `construct_relay_addresses` (`lib.rs` lines 155-184): for every
identified relay server, append `/p2p/<relay>/p2p-circuit/p2p/<target>`
to each of its addresses. -/
def construct_relay_addresses :
    List (Option String × List Multiaddr) → String → List Multiaddr
  | [], _ => []
  | (none, _) :: rest, target => construct_relay_addresses rest target
  | (some r, addrs) :: rest, target =>
    addrs.map (fun a => a ++ [Proto.p2p r, Proto.p2pCircuit, Proto.p2p target])
      ++ construct_relay_addresses rest target

/-- The skip test of `construct_relay_addresses_via_self` (`lib.rs`
lines 210-219): wildcard, loopback, or circuit (rendered with a
trailing slash) addresses are skipped. -/
def viaSelfSkip (a : Multiaddr) : Bool :=
  strHasSub (maStr a) "/0.0.0.0/" || strHasSub (maStr a) "/::/" ||
  strHasSub (maStr a) "127.0.0.1" || strHasSub (maStr a) "::1" ||
  strHasSub (maStr a) "/p2p-circuit/"

/-- `construct_relay_addresses_via_self` (`lib.rs` lines 191-244). -/
def construct_relay_addresses_via_self (our_peer_id : String)
    (our_addrs : List Multiaddr) (target : String) : List Multiaddr :=
  (our_addrs.filter (fun a => !viaSelfSkip a)).map
    (fun a => a ++ [Proto.p2p our_peer_id, Proto.p2pCircuit, Proto.p2p target])

/-- Number of `p2p-circuit` components of an address. -/
def countPCircuit (a : Multiaddr) : Nat :=
  a.countP (fun p => decide (p = Proto.p2pCircuit))

/-- Claim C6's reading of the loopback rule: the address carries
`127.0.0.1` or `::1` as a component. -/
def carriesLoopbackComponent (a : Multiaddr) : Bool :=
  a.any fun p =>
    decide (p = Proto.ip4 127 0 0 1) || decide (p = Proto.ip6 [0, 0, 0, 0, 0, 0, 0, 1])

/-- Well-formedness of a relay-server configuration for a target:
every identified relay has a peer id different from the target and
circuit-free base addresses. -/
def relayCfgOk (target : String) (servers : List (Option String × List Multiaddr)) : Bool :=
  servers.all fun e =>
    match e.1 with
    | none => true
    | some r => decide (r ≠ target) && e.2.all (fun b => decide (countPCircuit b = 0))

/-- Shape of a well-formed synthesized relay address: a base followed by
`/p2p/<r>/p2p-circuit/p2p/<target>` with `r ≠ target`. -/
def relaySynthesized (target : String) (a : Multiaddr) : Prop :=
  ∃ base r, r ≠ target ∧ a = base ++ [Proto.p2p r, Proto.p2pCircuit, Proto.p2p target]

/-- A link-local address, `/ip6/fe80::1234/tcp/1`: its rendering
contains the substring `::1` although its IP is neither `127.0.0.1` nor
`::1`. -/
def feAddr : Multiaddr := [Proto.ip6 [0xfe80, 0, 0, 0, 0, 0, 0, 0x1234], Proto.tcp 1]

/-- A public address, `/ip4/8.8.8.8/tcp/1`. -/
def pubAddr : Multiaddr := [Proto.ip4 8 8 8 8, Proto.tcp 1]

/-- A public own address, `/ip4/9.9.9.9/tcp/1`. -/
def ownAddr : Multiaddr := [Proto.ip4 9 9 9 9, Proto.tcp 1]

/-- A relay-reservation listen address ending in `p2p-circuit`,
`/ip4/1.2.3.4/tcp/1/p2p/QmR/p2p-circuit`: the trailing circuit renders
without a following slash, so the `/p2p-circuit/` substring tests miss
it. -/
def trailingCircuitAddr : Multiaddr :=
  [Proto.ip4 1 2 3 4, Proto.tcp 1, Proto.p2p "QmR", Proto.p2pCircuit]

/-- A double-relay address
`/ip4/1.2.3.4/tcp/1/p2p/QmA/p2p-circuit/p2p/QmB/p2p-circuit/p2p/QmC`. -/
def doubleRelayAddr : Multiaddr :=
  [Proto.ip4 1 2 3 4, Proto.tcp 1, Proto.p2p "QmA", Proto.p2pCircuit,
   Proto.p2p "QmB", Proto.p2pCircuit, Proto.p2p "QmC"]

/-- A single-circuit relay address with a component after the circuit,
`/ip4/5.5.5.5/tcp/1/p2p/QmA/p2p-circuit/p2p/QmB`. -/
def circuitAddr : Multiaddr :=
  [Proto.ip4 5 5 5 5, Proto.tcp 1, Proto.p2p "QmA", Proto.p2pCircuit, Proto.p2p "QmB"]

/-- The advertised list of scenario S4: `10.0.0.6:9000`, `8.8.8.8:9000`,
`127.0.0.1:9000`. -/
def s4Addrs : List Multiaddr :=
  [[Proto.ip4 10 0 0 6, Proto.tcp 9000], [Proto.ip4 8 8 8 8, Proto.tcp 9000],
   [Proto.ip4 127 0 0 1, Proto.tcp 9000]]

end DRE

/-!
Theorems. Shared helper lemmas come first, then one theorem per claim
(with its counterexample and witness where applicable).
-/

open SRP DRE

theorem filter_filter_height (l : List (Nat × HRange × Nat)) (h h' : Nat) (hle : h ≤ h') :
    (l.filter (fun x => decide (h < x.2.1.2))).filter (fun x => decide (h' < x.2.1.2))
      = l.filter (fun x => decide (h' < x.2.1.2)) := by
  induction l with
  | nil => rfl
  | cons x t ih =>
    by_cases hx : h < x.2.1.2
    · by_cases hx' : h' < x.2.1.2 <;> simp [List.filter_cons, hx, hx', ih]
    · have hx' : ¬ h' < x.2.1.2 := by omega
      simp [List.filter_cons, hx, hx', ih]

theorem removeUpTo_of_le (s : SyncState) (h : Nat) (hh : s.last_validated_height ≤ h) :
    PendingRequests.removeRequestsUpTo s h =
      { requests := s.requests.filter (fun x => decide (h < x.2.1.2))
        max_batch_size := s.max_batch_size
        nextStart := (computeFromRanges
          (sortByStart ((s.requests.filter (fun x => decide (h < x.2.1.2))).map (fun x => x.2.1)))
          s.max_batch_size (h + 1)).1
        nextEnd := (computeFromRanges
          (sortByStart ((s.requests.filter (fun x => decide (h < x.2.1.2))).map (fun x => x.2.1)))
          s.max_batch_size (h + 1)).2
        last_validated_height := h } := by
  unfold PendingRequests.removeRequestsUpTo
  rw [if_neg (by omega)]
  rfl

theorem lvh_updateAfterInsert (s : SyncState) (r : HRange) :
    (PendingRequests.updateNextRangeAfterInsert s r).last_validated_height
      = s.last_validated_height := by
  unfold PendingRequests.updateNextRangeAfterInsert
  split_ifs <;> rfl

theorem lvh_updateAfterRemove (s : SyncState) (r : HRange) :
    (PendingRequests.updateNextRangeAfterRemove s r).last_validated_height
      = s.last_validated_height := by
  unfold PendingRequests.updateNextRangeAfterRemove PendingRequests.updateNextRange
  split_ifs <;> rfl

theorem clampEnd_ge (ranges : List HRange) (s e : Nat) (h : s ≤ e) :
    s ≤ clampEnd s e ranges := by
  induction ranges with
  | nil => exact h
  | cons r t ih =>
    unfold clampEnd
    split_ifs with h1 h2
    · simp only [Bool.and_eq_true, decide_eq_true_eq] at h1
      omega
    · exact h
    · exact ih

theorem computeFromRanges_fst_le (ranges : List HRange) (mbs h : Nat) :
    (computeFromRanges ranges mbs h).1 ≤ (computeFromRanges ranges mbs h).2 :=
  clampEnd_ge _ _ _ (Nat.le_add_right _ _)

theorem next_le_updateAfterInsert (s : SyncState) (r : HRange)
    (ih : s.nextStart ≤ s.nextEnd) :
    (PendingRequests.updateNextRangeAfterInsert s r).nextStart
      ≤ (PendingRequests.updateNextRangeAfterInsert s r).nextEnd := by
  unfold PendingRequests.updateNextRangeAfterInsert setNextUncoveredRange
    computeNextUncoveredRangeFrom
  split_ifs <;> first
    | exact ih
    | exact computeFromRanges_fst_le _ _ _

theorem next_le_updateAfterRemove (s : SyncState) (r : HRange)
    (ih : s.nextStart ≤ s.nextEnd) :
    (PendingRequests.updateNextRangeAfterRemove s r).nextStart
      ≤ (PendingRequests.updateNextRangeAfterRemove s r).nextEnd := by
  unfold PendingRequests.updateNextRangeAfterRemove PendingRequests.updateNextRange
    setNextUncoveredRange computeNextUncoveredRange computeNextUncoveredRangeFrom
  split_ifs <;> first
    | exact ih
    | exact computeFromRanges_fst_le _ _ _

theorem countPCircuit_append3 (b : Multiaddr) (r t : String) :
    countPCircuit (b ++ [Proto.p2p r, Proto.p2pCircuit, Proto.p2p t])
      = countPCircuit b + 1 := by
  simp [countPCircuit, List.countP_append, List.countP_cons]

theorem construct_relay_ok (target : String) :
    ∀ servers : List (Option String × List Multiaddr),
      relayCfgOk target servers = true →
      ∀ a ∈ construct_relay_addresses servers target,
        countPCircuit a = 1 ∧ relaySynthesized target a := by
  intro servers
  induction servers with
  | nil =>
    intro _ a ha
    simp [construct_relay_addresses] at ha
  | cons e rest ih =>
    obtain ⟨mid, l⟩ := e
    intro hcfg a ha
    unfold relayCfgOk at hcfg
    rw [List.all_cons, Bool.and_eq_true] at hcfg
    cases mid with
    | none =>
      rw [construct_relay_addresses] at ha
      exact ih hcfg.2 a ha
    | some r =>
      have h1 : (decide (r ≠ target) && l.all (fun b => decide (countPCircuit b = 0)))
          = true := hcfg.1
      rw [Bool.and_eq_true] at h1
      have hrt : r ≠ target := of_decide_eq_true h1.1
      rw [construct_relay_addresses] at ha
      rcases List.mem_append.mp ha with hL | hR
      · rcases List.mem_map.mp hL with ⟨b, hb, rfl⟩
        have hb0 : countPCircuit b = 0 :=
          of_decide_eq_true (List.all_eq_true.mp h1.2 b hb)
        refine ⟨?_, b, r, hrt, rfl⟩
        rw [countPCircuit_append3, hb0]
      · exact ih hcfg.2 a hR

/-- Claim C1: in every state reachable from `new` by `insert`, `remove`
and `remove_requests_up_to`, `next_uncovered_range.start` is claimed to
be the smallest height greater than `last_validated_height` not covered
by a pending range. The code violates this: after
`new(10,5); insert(r1, 10..=14); remove(r1)` the pending set is empty
and height 10 is uncovered and greater than `last_validated_height = 9`,
yet the cached `nextStart` stays at 15 — the dead
`max(next.start, removed.start) < next.start` branch of
`update_next_range_after_remove` never lets the range move back. -/
theorem C1_next_start_not_minimal_uncovered :
    ∃ s, Reach s ∧ s.last_validated_height = 9 ∧ coveredBy s 10 = false ∧
      s.last_validated_height < 10 ∧ 10 < s.nextStart := by
  refine ⟨PendingRequests.remove
      (PendingRequests.insert (PendingRequests.new 10 5) 1 (10, 14) 0) 1,
    Reach.step_remove 1 (Reach.step_insert 1 10 14 0 (Reach.mk_new 10 5)), ?_, ?_, ?_, ?_⟩
  all_goals decide

/-- Claim C2: from `new(10,5)`, `insert(r1, 10..=14, A)` makes
`next_uncovered_range = 15..=19` (this part holds), but the claimed
`remove(r1) → next = 10..=14` fails: the code leaves `next = 15..=19`,
the full state after the removal being exactly the one computed here. -/
theorem C2_single_request_retirement_divergence :
    (PendingRequests.insert (PendingRequests.new 10 5) 1 (10, 14) 0).nextStart = 15 ∧
    (PendingRequests.insert (PendingRequests.new 10 5) 1 (10, 14) 0).nextEnd = 19 ∧
    PendingRequests.remove (PendingRequests.insert (PendingRequests.new 10 5) 1 (10, 14) 0) 1
      = { requests := [], max_batch_size := 5, nextStart := 15, nextEnd := 19,
          last_validated_height := 9 } := by
  decide

/-- Claim C3: from `new(10,5)`, after `insert(r1, 10..=14, A)` and
`insert(r2, 15..=19, B)`, `remove_requests_up_to(17)` drops the request
ending at 14, keeps `15..=19` (19 > 17) as the only pending request,
sets `last_validated_height = 17`, and sets
`next_uncovered_range = 20..=24`. -/
theorem C3_decision_collapse_scenario :
    PendingRequests.removeRequestsUpTo
      (PendingRequests.insert
        (PendingRequests.insert (PendingRequests.new 10 5) 1 (10, 14) 0) 2 (15, 19) 1) 17
      = { requests := [(2, (15, 19), 1)], max_batch_size := 5, nextStart := 20,
          nextEnd := 24, last_validated_height := 17 } := by
  decide

/-- Claim C4: for every state and heights `h ≤ h'`,
`remove_requests_up_to(h)` followed by `remove_requests_up_to(h')`
leaves exactly the state of the single call
`remove_requests_up_to(h')`. -/
theorem C4_remove_up_to_absorption (s : SyncState) (h h' : Nat) (hle : h ≤ h') :
    PendingRequests.removeRequestsUpTo (PendingRequests.removeRequestsUpTo s h) h'
      = PendingRequests.removeRequestsUpTo s h' := by
  rcases Nat.lt_or_ge h s.last_validated_height with h1 | h1
  · have e : PendingRequests.removeRequestsUpTo s h = s := by
      unfold PendingRequests.removeRequestsUpTo
      rw [if_pos h1]
    rw [e]
  · rw [removeUpTo_of_le s h h1]
    rw [removeUpTo_of_le _ h' hle]
    rw [removeUpTo_of_le s h' (by omega)]
    dsimp only
    rw [filter_filter_height s.requests h h' hle]

/-- Witness for C4 at the concrete state `new(10,5)` with `h = 12`,
`h' = 15`. -/
theorem C4_remove_up_to_absorption_witness :
    PendingRequests.removeRequestsUpTo
      (PendingRequests.removeRequestsUpTo (PendingRequests.new 10 5) 12) 15
      = PendingRequests.removeRequestsUpTo (PendingRequests.new 10 5) 15 :=
  C4_remove_up_to_absorption (PendingRequests.new 10 5) 12 15 (by decide)

/-- Claim C5: `last_validated_height` is non-decreasing across every
operation (`insert` and `remove` leave it unchanged,
`remove_requests_up_to` can only raise it), and
`remove_requests_up_to(h)` with `h < last_validated_height` is a no-op
on the whole state (the error is only logged). -/
theorem C5_last_validated_monotone (s : SyncState) (h id : Nat) (r : HRange) (p : Nat) :
    s.last_validated_height
        ≤ (PendingRequests.removeRequestsUpTo s h).last_validated_height ∧
    (PendingRequests.insert s id r p).last_validated_height = s.last_validated_height ∧
    (PendingRequests.remove s id).last_validated_height = s.last_validated_height ∧
    (h < s.last_validated_height → PendingRequests.removeRequestsUpTo s h = s) := by
  refine ⟨?_, ?_, ?_, ?_⟩
  · unfold PendingRequests.removeRequestsUpTo
    split_ifs with hc
    · exact Nat.le_refl _
    · show s.last_validated_height ≤ h
      omega
  · unfold PendingRequests.insert
    rw [lvh_updateAfterInsert]
  · unfold PendingRequests.remove
    dsimp only
    split
    · rfl
    · rw [lvh_updateAfterRemove]
  · intro hlt
    unfold PendingRequests.removeRequestsUpTo
    rw [if_pos hlt]

/-- Witness for C5 at `new(10,5)` (so `last_validated_height = 9`) with
`h = 3 < 9`. -/
theorem C5_last_validated_monotone_witness :
    (PendingRequests.new 10 5).last_validated_height
        ≤ (PendingRequests.removeRequestsUpTo (PendingRequests.new 10 5) 3).last_validated_height ∧
    PendingRequests.removeRequestsUpTo (PendingRequests.new 10 5) 3
      = PendingRequests.new 10 5 :=
  ⟨(C5_last_validated_monotone (PendingRequests.new 10 5) 3 1 (2, 3) 4).1,
   (C5_last_validated_monotone (PendingRequests.new 10 5) 3 1 (2, 3) 4).2.2.2 (by decide)⟩

/-- Claim C9: `new` clamps `max_batch_size` to at least 1, so
`new(h, 0) = new(h, 1)`, and in every reachable state the cached
`next_uncovered_range` is non-empty (`start ≤ end`). -/
theorem C9_batch_size_clamp :
    (∀ h, PendingRequests.new h 0 = PendingRequests.new h 1) ∧
    ∀ s, Reach s → s.nextStart ≤ s.nextEnd := by
  constructor
  · intro h
    rfl
  · intro s hr
    induction hr with
    | mk_new h b => exact Nat.le_add_right _ _
    | step_insert id lo hi p _ ih => exact next_le_updateAfterInsert _ _ ih
    | step_remove id _ ih =>
      unfold PendingRequests.remove
      dsimp only
      split
      · exact ih
      · exact next_le_updateAfterRemove _ _ ih
    | step_removeUpTo h _ ih =>
      unfold PendingRequests.removeRequestsUpTo
      split_ifs
      · exact ih
      · exact computeFromRanges_fst_le _ _ _

/-- Witness for C9 at the reachable state `new(10,5)`. -/
theorem C9_batch_size_clamp_witness :
    (PendingRequests.new 10 5).nextStart ≤ (PendingRequests.new 10 5).nextEnd :=
  C9_batch_size_clamp.2 (PendingRequests.new 10 5) (Reach.mk_new 10 5)

/-- Claim C6 counterexample: the loopback rule is a substring test on
the rendered address, not a test of the IP component. The link-local
address `/ip6/fe80::1234/tcp/1` carries neither `127.0.0.1` nor `::1`
as a component, yet its rendering contains `::1`, so the filter drops
it: with own address `9.9.9.9` it appears in neither output list. -/
theorem C6_loopback_filter_counterexample :
    carriesLoopbackComponent feAddr = false ∧
    isLoopbackStr feAddr = true ∧
    filter_addresses_with_relay [pubAddr, feAddr] [ownAddr]
      = { direct := [pubAddr], relay_candidates := [] } := by
  decide

/-- Claim C6 amended: an address is removed by the loopback pre-filter
iff its rendering contains the substring `127.0.0.1` or `::1` (so some
non-loopback addresses are also removed); addresses removed by the
pre-filter appear in no output of either filter unless the pre-filter
removes everything, in which case the original list is returned
unchanged (local-test fallback). -/
theorem C6_loopback_filter_amended (addrs own : List Multiaddr) (re : Bool) :
    (addrs.filter loopbackPre = [] →
      filter_addresses_with_relay addrs own = { direct := addrs, relay_candidates := [] } ∧
      filter_reachable_addresses addrs own re = addrs) ∧
    (∀ a ∈ addrs, isLoopbackStr a = true → a ∉ addrs.filter loopbackPre) ∧
    (∀ a ∈ addrs, isLoopbackStr a = false → circuitStrCount a ≤ 1 →
      a ∈ addrs.filter loopbackPre) ∧
    (addrs.filter loopbackPre ≠ [] →
      (∀ a ∈ (filter_addresses_with_relay addrs own).direct, a ∈ addrs.filter loopbackPre) ∧
      (∀ a ∈ (filter_addresses_with_relay addrs own).relay_candidates,
        a ∈ addrs.filter loopbackPre) ∧
      (∀ a ∈ filter_reachable_addresses addrs own re, a ∈ addrs.filter loopbackPre)) := by
  refine ⟨?_, ?_, ?_, ?_⟩
  · intro he
    constructor
    · unfold filter_addresses_with_relay
      simp [he]
    · unfold filter_reachable_addresses
      simp [he]
  · intro a _ hl
    simp [List.mem_filter, loopbackPre, hl]
  · intro a ha h1 h2
    refine List.mem_filter.mpr ⟨ha, ?_⟩
    simp [loopbackPre, h1]
    omega
  · intro hne
    have hE : (addrs.filter loopbackPre).isEmpty = false := by
      cases h : addrs.filter loopbackPre with
      | nil => exact absurd h hne
      | cons x t => rfl
    unfold filter_addresses_with_relay filter_reachable_addresses
    simp only [hE, Bool.false_eq_true, if_false]
    by_cases hO : (own.filter ownPre).isEmpty
    · simp only [hO, if_true]
      exact ⟨fun a ha => ha, fun a ha => (by cases ha), fun a ha => ha⟩
    · simp only [hO, if_false]
      refine ⟨?_, ?_, ?_⟩ <;> exact fun a ha => (List.mem_filter.mp ha).1

/-- Witness for C6 amended: the local-test fallback at the
all-loopback-like list `[feAddr]`. -/
theorem C6_loopback_filter_witness :
    filter_addresses_with_relay [feAddr] []
      = { direct := [feAddr], relay_candidates := [] } ∧
    filter_reachable_addresses [feAddr] [] true = [feAddr] :=
  (C6_loopback_filter_amended [feAddr] [] true).1 (by decide)

/-- Claim C7: scenario S4. With local `[10.0.0.5]` the peer list
`[10.0.0.6:9000, 8.8.8.8:9000, 127.0.0.1:9000]` filters to
direct `[10.0.0.6:9000, 8.8.8.8:9000]` (same /16 private subnet,
private-to-public) with no relay candidates; with local `[203.0.113.1]`
direct is `[8.8.8.8:9000]` and `10.0.0.6:9000` becomes a relay
candidate. -/
theorem C7_private_public_filter_scenario :
    filter_addresses_with_relay s4Addrs [[Proto.ip4 10 0 0 5]]
      = { direct := [[Proto.ip4 10 0 0 6, Proto.tcp 9000], [Proto.ip4 8 8 8 8, Proto.tcp 9000]],
          relay_candidates := [] } ∧
    filter_addresses_with_relay s4Addrs [[Proto.ip4 203 0 113 1]]
      = { direct := [[Proto.ip4 8 8 8 8, Proto.tcp 9000]],
          relay_candidates := [[Proto.ip4 10 0 0 6, Proto.tcp 9000]] } := by
  decide

/-- Claim C8 counterexample: synthesized relay addresses need not have
exactly one `p2p-circuit` segment nor a relay id different from the
target. A listen address ending in `p2p-circuit` renders without the
trailing slash, escapes the `"/p2p-circuit/"` skip test of
`construct_relay_addresses_via_self`, and yields an address with two
circuit segments; and `construct_relay_addresses` applied to a relay
entry whose peer id equals the target synthesizes
`/p2p/QmT/p2p-circuit/p2p/QmT`. -/
theorem C8_relay_synthesis_counterexample :
    construct_relay_addresses_via_self "QmS" [trailingCircuitAddr] "QmT"
      = [trailingCircuitAddr ++ [Proto.p2p "QmS", Proto.p2pCircuit, Proto.p2p "QmT"]] ∧
    countPCircuit (trailingCircuitAddr ++ [Proto.p2p "QmS", Proto.p2pCircuit, Proto.p2p "QmT"])
      = 2 ∧
    construct_relay_addresses [(some "QmT", [[Proto.ip4 5 6 7 8, Proto.tcp 1]])] "QmT"
      = [[Proto.ip4 5 6 7 8, Proto.tcp 1, Proto.p2p "QmT", Proto.p2pCircuit, Proto.p2p "QmT"]] := by
  decide

/-- Claim C8 amended: every synthesized relay address appends
`/p2p/<relay-id>/p2p-circuit/p2p/<target>` to a relay base address;
provided every base address is circuit-free and the relay peer id (or
our own peer id, for the via-self variant) differs from the target, the
result contains exactly one `p2p-circuit` component and the relay id
before the circuit differs from the target. The code itself enforces
neither proviso. -/
theorem C8_relay_synthesis_amended (servers : List (Option String × List Multiaddr))
    (target us : String) (ourAddrs : List Multiaddr) :
    (relayCfgOk target servers = true →
      ∀ a ∈ construct_relay_addresses servers target,
        countPCircuit a = 1 ∧ relaySynthesized target a) ∧
    (us ≠ target → (∀ b ∈ ourAddrs, countPCircuit b = 0) →
      ∀ a ∈ construct_relay_addresses_via_self us ourAddrs target,
        countPCircuit a = 1 ∧ relaySynthesized target a) := by
  constructor
  · exact construct_relay_ok target servers
  · intro hne hcnt a ha
    unfold construct_relay_addresses_via_self at ha
    rcases List.mem_map.mp ha with ⟨b, hb, rfl⟩
    have hb' := (List.mem_filter.mp hb).1
    refine ⟨?_, b, us, hne, rfl⟩
    rw [countPCircuit_append3, hcnt b hb']

/-- Witness for C8 amended at a well-formed relay configuration. -/
theorem C8_relay_synthesis_witness :
    countPCircuit
      [Proto.ip4 5 6 7 8, Proto.tcp 1, Proto.p2p "QmR", Proto.p2pCircuit, Proto.p2p "QmT"] = 1 ∧
    relaySynthesized "QmT"
      [Proto.ip4 5 6 7 8, Proto.tcp 1, Proto.p2p "QmR", Proto.p2pCircuit, Proto.p2p "QmT"] :=
  (C8_relay_synthesis_amended [(some "QmR", [[Proto.ip4 5 6 7 8, Proto.tcp 1]])]
    "QmT" "QmS" []).1 (by decide) _ (by decide)

/-- Claim C10 counterexample: the circuit skip is the substring test
`"/p2p-circuit/"`, so an input address whose `p2p-circuit` component is
last (no following component) is NOT dropped: with a non-loopback own
address it is classified and lands in `direct`. Moreover, in the
no-own-address fallback a non-loopback double-relay input is dropped by
the pre-filter rather than returned in `direct`. -/
theorem C10_circuit_handling_counterexample :
    (Proto.p2pCircuit ∈ trailingCircuitAddr ∧
     filter_addresses_with_relay [trailingCircuitAddr] [ownAddr]
       = { direct := [trailingCircuitAddr], relay_candidates := [] }) ∧
    (isLoopbackStr doubleRelayAddr = false ∧
     filter_addresses_with_relay [pubAddr, doubleRelayAddr] []
       = { direct := [pubAddr], relay_candidates := [] }) := by
  decide

/-- Claim C10 amended: when the pre-filter keeps at least one peer
address and the own list has a non-loopback address, every address whose
rendering contains the substring `/p2p-circuit/` is placed in neither
`direct` nor `relay_candidates`; when the own list has no non-loopback
address, `direct` is exactly the pre-filter survivors (non-loopback, at
most one circuit) and `relay_candidates` is empty. -/
theorem C10_circuit_handling_amended (addrs own : List Multiaddr) :
    (addrs.filter loopbackPre ≠ [] → own.filter ownPre ≠ [] →
      ∀ a, strHasSub (maStr a) "/p2p-circuit/" = true →
        a ∉ (filter_addresses_with_relay addrs own).direct ∧
        a ∉ (filter_addresses_with_relay addrs own).relay_candidates) ∧
    (addrs.filter loopbackPre ≠ [] → own.filter ownPre = [] →
      filter_addresses_with_relay addrs own
        = { direct := addrs.filter loopbackPre, relay_candidates := [] }) := by
  constructor
  · intro hne hown a hsub
    have hE : (addrs.filter loopbackPre).isEmpty = false := by
      cases h : addrs.filter loopbackPre with
      | nil => exact absurd h hne
      | cons x t => rfl
    have hO : (own.filter ownPre).isEmpty = false := by
      cases h : own.filter ownPre with
      | nil => exact absurd h hown
      | cons x t => rfl
    unfold filter_addresses_with_relay
    simp only [hE, hO, Bool.false_eq_true, if_false]
    constructor
    · intro hmem
      have hc := (List.mem_filter.mp hmem).2
      simp [classify, hsub] at hc
    · intro hmem
      have hc := (List.mem_filter.mp hmem).2
      simp [classify, hsub] at hc
  · intro hne hown
    have hE : (addrs.filter loopbackPre).isEmpty = false := by
      cases h : addrs.filter loopbackPre with
      | nil => exact absurd h hne
      | cons x t => rfl
    unfold filter_addresses_with_relay
    simp only [hE, hown, Bool.false_eq_true, if_false, List.isEmpty_nil, if_true]

/-- Witness for C10 amended: the single-circuit address
`/ip4/5.5.5.5/tcp/1/p2p/QmA/p2p-circuit/p2p/QmB` is dropped from both
lists when a non-loopback own address exists. -/
theorem C10_circuit_handling_witness :
    circuitAddr ∉ (filter_addresses_with_relay [pubAddr, circuitAddr] [ownAddr]).direct ∧
    circuitAddr ∉ (filter_addresses_with_relay [pubAddr, circuitAddr] [ownAddr]).relay_candidates :=
  (C10_circuit_handling_amended [pubAddr, circuitAddr] [ownAddr]).1
    (by decide) (by decide) circuitAddr (by decide)
